import Mathlib

/-!
Shallow embedding of the PDF merger chat bot (`src/main.py`).

The bot keeps one `UserSession` per user.  PDF files live in a scratch
directory, modelled here as a partial map `FS` from path strings to `File`
records.  The external PDF codec (PyMuPDF) is modelled by the three file
operations `remove_page_from_pdf`, `merge_pdfs` and `get_pdf_page_count`;
residual codec failure modes (I/O errors and the like) are abstracted by a
boolean oracle `codecOk` threaded through the handlers.  Chat transport
effects (replies, button rendering) are not modelled; the delivery step of
the "finish" action is abstracted by the oracle `sendOk`, and the download
step of the document handler by `downloadOk`.
-/

namespace PdfBot

/-- A PDF file on disk: its page count, its size (in rounded MB units, kept
abstract as a natural number) and whether the codec can parse it. -/
structure File where
  pages : Nat
  size : Nat
  valid : Bool
deriving DecidableEq, Repr

/-- The scratch directory: a partial map from path to file.  Paths are
modelled relative to the temp directory. -/
def FS : Type := String → Option File

/-- Writing a file (codec `save`, or a completed download). -/
def FS.write (fs : FS) (p : String) (f : File) : FS :=
  fun q => if q = p then some f else fs q

/-- `os.remove`, modelled total: removing an absent file is a no-op, matching
the `try`/`except` wrappers around every `os.remove` in the source. -/
def FS.remove (fs : FS) (p : String) : FS :=
  fun q => if q = p then none else fs q

/-- `get_pdf_page_count` (src/main.py:211-219): `fitz.open` + `page_count`,
returning `None` when the file is missing or unparseable. -/
def get_pdf_page_count (fs : FS) (p : String) : Option Nat :=
  match fs p with
  | some f => if f.valid then some f.pages else none
  | none => none

/-- `get_pdf_size_mb` (src/main.py:222-226): file size, `0.0` on any error. -/
def get_pdf_size_mb (fs : FS) (p : String) : Nat :=
  match fs p with
  | some f => f.size
  | none => 0

/-- `remove_page_from_pdf` (src/main.py:183-192): open `input_path`, delete
the 1-indexed page, save to `output_path`.  It fails (returns `False`) when
the input cannot be opened, the page index is out of range, the output path
equals the open input path (the codec refuses a non-incremental save onto
the open file), or on a residual codec failure (`codecOk = false`).
On success the output file holds one page fewer than the input. -/
def remove_page_from_pdf (codecOk : Bool) (outSize : Nat) (fs : FS)
    (input_path output_path : String) (page_num : Nat) : Option FS :=
  match get_pdf_page_count fs input_path with
  | none => none
  | some pc =>
    if codecOk && decide (1 ≤ page_num) && decide (page_num ≤ pc)
        && !(output_path == input_path) then
      some (fs.write output_path ⟨pc - 1, outSize, true⟩)
    else none

/-- `merge_pdfs` (src/main.py:195-208): insert every input, in order, into a
fresh document and save it.  It fails when some input cannot be opened, on
an empty input list (the codec refuses to save a zero-page document), or on
a residual codec failure.  On success the output file holds the sum of the
input files' page counts. -/
def merge_pdfs (codecOk : Bool) (outSize : Nat) (fs : FS)
    (pdf_paths : List String) (output_path : String) : Option FS :=
  if codecOk && !pdf_paths.isEmpty
      && pdf_paths.all (fun p => (get_pdf_page_count fs p).isSome) then
    some (fs.write output_path
      ⟨(pdf_paths.map (fun p => (get_pdf_page_count fs p).getD 0)).sum,
       outSize, true⟩)
  else none

/-- `PDFInfo` (src/main.py:52-59). -/
structure PDFInfo where
  path : String
  filename : String
  pages : Nat
  size : Nat
  order : Nat
deriving DecidableEq, Repr

/-- The session's `temp_data` dict; the source only ever uses the keys
`page_count` and `reorder_page`. -/
structure TempData where
  page_count : Option Nat
  reorder_page : Option Nat
deriving DecidableEq, Repr

/-- The bot's five conversation states (string tags in the source). -/
inductive SState where
  | idle
  | waiting_pdf
  | has_pdfs
  | reordering
  | waiting_page_number
deriving DecidableEq, Repr

/-- `UserSession` (src/main.py:61-70). -/
structure UserSession where
  user_id : Nat
  pdfs : List PDFInfo
  state : SState
  temp_data : TempData
  is_merged : Bool
  batch_mode : Bool
  processing_batch : Bool
deriving DecidableEq, Repr

/-- `UserSession.add_pdf` (src/main.py:72-74). -/
def UserSession.add_pdf (s : UserSession) (pdf_info : PDFInfo) : UserSession :=
  { s with pdfs := s.pdfs ++ [pdf_info], is_merged := false }

/-- `UserSession.move_pdf` (src/main.py:82-87): `pop(from_idx)` then
`insert(to_idx, pdf)` after a bounds check on both indices. -/
def UserSession.move_pdf (s : UserSession) (from_idx to_idx : Nat) :
    UserSession × Bool :=
  if h : from_idx < s.pdfs.length ∧ to_idx < s.pdfs.length then
    ({ s with pdfs :=
        (s.pdfs.eraseIdx from_idx).insertIdx to_idx (s.pdfs.get ⟨from_idx, h.1⟩) },
     true)
  else (s, false)

/-- `UserSession.clear` (src/main.py:89-101): best-effort delete every owned
file, empty the sequence and scratch data, reset every flag and the state. -/
def UserSession.clear (s : UserSession) (fs : FS) : UserSession × FS :=
  ({ s with pdfs := [], temp_data := ⟨none, none⟩, state := .idle,
            is_merged := false, batch_mode := false, processing_batch := false },
   s.pdfs.foldl (fun f p => f.remove p.path) fs)

/-- `MAX_FILE_SIZE` (src/main.py:36). -/
def MAX_FILE_SIZE : Nat := 50 * 1024 * 1024

/-- `create_main_menu` (src/main.py:110-143), as the ordered list of the
`callback_data` tags of the offered buttons (labels and row grouping are
presentation only).  A pure function of `(pdf_count, is_merged, batch_mode)`:
same inputs always yield the same action list. -/
def create_main_menu (pdf_count : Nat) (is_merged : Bool) (batch_mode : Bool) :
    List String :=
  (if is_merged then
    ["finish", "remove_page", "reset"]
  else if 1 ≤ pdf_count ∧ batch_mode = true then
    ["view_order", "merge_pdfs", "show_status", "reset"]
  else if pdf_count = 1 then
    ["add_pdf", "remove_page", "finish"]
  else if 1 < pdf_count then
    ["view_order", "add_pdf", "merge_pdfs", "reset"]
  else
    ["add_pdf"]) ++ ["cancel"]

/-- Modelled from the spec: the §4.2 decision table, rows evaluated top to
bottom (`is_merged`; `count ≥ 1 and batch_mode`; `count == 1`; `count > 1`;
`count == 0`), with "cancel" always appended.  Spec action names map to
callback tags: download ↦ `finish`, remove-pages ↦ `remove_page`,
start-over / cancel-restart / reset-all ↦ `reset`, view/reorder ↦
`view_order`, merge-all ↦ `merge_pdfs`, show-status ↦ `show_status`,
add-another / add-more / add-pdf ↦ `add_pdf`. -/
def build_menu_spec (pdf_count : Nat) (is_merged : Bool) (batch_mode : Bool) :
    List String :=
  (if is_merged then
    ["finish", "remove_page", "reset"]
  else if 1 ≤ pdf_count ∧ batch_mode = true then
    ["view_order", "merge_pdfs", "show_status", "reset"]
  else if pdf_count = 1 then
    ["add_pdf", "remove_page", "finish"]
  else if 1 < pdf_count then
    ["view_order", "add_pdf", "merge_pdfs", "reset"]
  else if pdf_count = 0 then
    ["add_pdf"]
  else []) ++ ["cancel"]

/-- The temp path used for an upload:
`pdf_{user_id}_{len(session.pdfs)}_{message.id}.pdf` (src/main.py:317-320). -/
def docPath (uid idx mid : Nat) : String :=
  "pdf_" ++ toString uid ++ "_" ++ toString idx ++ "_" ++ toString mid ++ ".pdf"

/-- The merge output path: `merged_{user_id}.pdf` (src/main.py:501-504). -/
def mergedPath (uid : Nat) : String :=
  "merged_" ++ toString uid ++ ".pdf"

/-- The page-removal output path: `modified_{user_id}_{pdf_idx}.pdf`
(src/main.py:601-604). -/
def modifiedPath (uid idx : Nat) : String :=
  "modified_" ++ toString uid ++ "_" ++ toString idx ++ ".pdf"

/-- An incoming document event: declared MIME type, declared size, suggested
filename (`None` possible) and the message id used in the temp path. -/
structure DocMsg where
  mime_type : String
  file_size : Nat
  file_name : Option String
  msg_id : Nat
deriving DecidableEq, Repr

/-- The default filename `document_{len(session.pdfs)+1}.pdf`; Python's
`or` also replaces an empty suggested name. -/
def defaultDocName (n : Nat) : String :=
  "document_" ++ toString (n + 1) ++ ".pdf"

/-- `handle_document` (src/main.py:291-360).  `downloadOk` abstracts whether
`message.download` succeeds; `content` is the downloaded payload.  Note the
source sets `batch_mode` before downloading and validating the file. -/
def handle_document (downloadOk : Bool) (content : File)
    (s : UserSession) (fs : FS) (d : DocMsg) : UserSession × FS :=
  if s.state ∉ ([.waiting_pdf, .idle, .has_pdfs] : List SState) then (s, fs)
  else if d.mime_type ≠ "application/pdf" then (s, fs)
  else if MAX_FILE_SIZE < d.file_size then (s, fs)
  else
    let s1 := if !s.batch_mode then { s with batch_mode := true } else s
    if !downloadOk then (s1, fs)
    else
      let path := docPath s1.user_id s1.pdfs.length d.msg_id
      let fs1 := fs.write path content
      match get_pdf_page_count fs1 path with
      | none => (s1, fs1.remove path)
      | some page_count =>
        let filename := match d.file_name with
          | some n => if n = "" then defaultDocName s1.pdfs.length else n
          | none => defaultDocName s1.pdfs.length
        let info : PDFInfo :=
          ⟨path, filename, page_count, get_pdf_size_mb fs1 path, s1.pdfs.length⟩
        ({ s1.add_pdf info with state := .has_pdfs }, fs1)

/-- Sort key of the `sort_name` action: case-insensitive lexicographic
comparison of filenames (`key=lambda x: x.filename.lower()`). -/
def nameLe (a b : PDFInfo) : Bool :=
  decide (a.filename.toLower ≤ b.filename.toLower)

/-- Sort key of the `sort_pages` action: ascending page count
(`key=lambda x: x.pages`). -/
def pagesLe (a b : PDFInfo) : Bool :=
  decide (a.pages ≤ b.pages)

/-- Python's `str.startswith`, as a structural prefix test on the character
data (the library `String.startsWith` is extensionally the same but its
byte-level loop does not reduce in the kernel). -/
def strStartsWith (s p : String) : Bool :=
  p.data.isPrefixOf s.data

/-- Helper for `pySplitUnderscore`: split a character list at a separator,
keeping empty groups, exactly like Python's `str.split(sep)`. -/
def splitAtSep (sep : Char) : List Char → List (List Char)
  | [] => [[]]
  | c :: cs =>
    match splitAtSep sep cs with
    | [] => [[]]
    | g :: gs => if c = sep then [] :: g :: gs else (c :: g) :: gs

/-- Python's `action.split("_")`. -/
def pySplitUnderscore (s : String) : List String :=
  (splitAtSep '_' s.data).map (fun l => String.mk l)

/-- Python's `int(t)` guarded by `t.isdigit()`: `some` exactly on non-empty
all-(ASCII-)digit strings, else `none` (a structural version of
`String.toNat?`). -/
def pyToNat (s : String) : Option Nat :=
  if s.data ≠ [] ∧ s.data.all Char.isDigit then
    some (s.data.foldl (fun n c => n * 10 + (c.toNat - Char.toNat '0')) 0)
  else none

/-- `int(action.split("_")[i])`: `none` models the `ValueError` raised on a
non-numeric part or the `IndexError` on a missing part, both swallowed by
the handler's outer `except`. -/
def idxArg (action : String) (i : Nat) : Option Nat :=
  match (pySplitUnderscore action).get? i with
  | some t => pyToNat t
  | none => none

/-- The dispatch alternatives of `handle_callback` (src/main.py:363-575).
`other` covers every `callback_data` with no matching branch — notably
`remove_page`, `show_status` and the `page_{k}` pagination tags, which the
menus emit but the handler never matches. -/
inductive CbAction where
  | add_pdf
  | view_order
  | move_up (idx : Option Nat)
  | move_down (idx : Option Nat)
  | info (idx : Option Nat)
  | sort_name
  | sort_pages
  | done_reorder
  | cancel_reorder
  | merge
  | finish
  | reset
  | cancel
  | other
deriving DecidableEq, Repr

/-- The `if`/`elif` dispatch of `handle_callback`, in source order. -/
def parseCallback (action : String) : CbAction :=
  if action = "add_pdf" then .add_pdf
  else if action = "view_order" then .view_order
  else if strStartsWith action "move_up_" then .move_up (idxArg action 2)
  else if strStartsWith action "move_down_" then .move_down (idxArg action 2)
  else if strStartsWith action "info_" then .info (idxArg action 1)
  else if action = "sort_name" then .sort_name
  else if action = "sort_pages" then .sort_pages
  else if action = "done_reorder" then .done_reorder
  else if action = "cancel_reorder" then .cancel_reorder
  else if action = "merge_pdfs" then .merge
  else if action = "finish" then .finish
  else if action = "reset" then .reset
  else if action = "cancel" then .cancel
  else .other

/-- The per-branch effects of `handle_callback` on the session and the
scratch directory.  Python's `list.sort(key=...)` is a stable sort by the
key order; it is modelled by the stable `List.mergeSort`. -/
def handleAction (codecOk sendOk : Bool) (outSize : Nat)
    (s : UserSession) (fs : FS) : CbAction → UserSession × FS
  | .add_pdf => ({ s with state := .waiting_pdf, batch_mode := true }, fs)
  | .view_order =>
    if s.pdfs.isEmpty then (s, fs)
    else ({ s with state := .reordering,
                   temp_data := { s.temp_data with reorder_page := some 0 } }, fs)
  | .move_up none => (s, fs)
  | .move_up (some idx) =>
    if 0 < idx then ((s.move_pdf idx (idx - 1)).1, fs) else (s, fs)
  | .move_down none => (s, fs)
  | .move_down (some idx) =>
    if idx < s.pdfs.length - 1 then ((s.move_pdf idx (idx + 1)).1, fs) else (s, fs)
  | .info _ => (s, fs)
  | .sort_name => ({ s with pdfs := s.pdfs.mergeSort nameLe }, fs)
  | .sort_pages => ({ s with pdfs := s.pdfs.mergeSort pagesLe }, fs)
  | .done_reorder => ({ s with state := .has_pdfs }, fs)
  | .cancel_reorder => ({ s with state := .has_pdfs }, fs)
  | .merge =>
    if s.pdfs.length < 2 then (s, fs)
    else
      let output_path := mergedPath s.user_id
      let pdf_paths := s.pdfs.map (fun p => p.path)
      match merge_pdfs codecOk outSize fs pdf_paths output_path with
      | none => (s, fs)
      | some fs1 =>
        let fs2 := pdf_paths.foldl (fun f p => f.remove p) fs1
        let page_count := (get_pdf_page_count fs2 output_path).getD 0
        let file_size := get_pdf_size_mb fs2 output_path
        ({ s with
            pdfs := [⟨output_path, "merged_document.pdf", page_count, file_size, 0⟩],
            is_merged := true, batch_mode := false }, fs2)
  | .finish =>
    if s.pdfs.isEmpty then (s, fs)
    else if sendOk then s.clear fs else (s, fs)
  | .reset =>
    let r := s.clear fs
    ({ r.1 with state := .waiting_pdf }, r.2)
  | .cancel => s.clear fs
  | .other => (s, fs)

/-- `handle_callback` (src/main.py:363-575): dispatch on the callback data,
then apply the branch's effect.  Branches that raise are caught by the outer
`except` with the session left as mutated so far; every modelled branch is
total. -/
def handle_callback (codecOk sendOk : Bool) (outSize : Nat)
    (s : UserSession) (fs : FS) (action : String) : UserSession × FS :=
  handleAction codecOk sendOk outSize s fs (parseCallback action)

/-- `handle_text` (src/main.py:578-631).  `String.toNat?` models the
`isdigit()` guard followed by `int(...)`.  In the success branch the source
reads the new page count back from the output file; the model stores the
looked-up value (`getD 0` is never hit because the output was just written
to a path distinct from the removed input). -/
def handle_text (codecOk : Bool) (outSize : Nat)
    (s : UserSession) (fs : FS) (text : String) : UserSession × FS :=
  if s.state ≠ .waiting_page_number then (s, fs)
  else match pyToNat text with
  | none => (s, fs)
  | some page_num =>
    let page_count := s.temp_data.page_count.getD 0
    if page_num < 1 ∨ page_count < page_num then (s, fs)
    else
      let pdf_idx := s.pdfs.length - 1
      match s.pdfs.get? pdf_idx with
      | none => (s, fs)
      | some pdf_info =>
        let output_path := modifiedPath s.user_id pdf_idx
        match remove_page_from_pdf codecOk outSize fs pdf_info.path output_path page_num with
        | none => (s, fs)
        | some fs1 =>
          let fs2 := fs1.remove pdf_info.path
          let new_pages := (get_pdf_page_count fs2 output_path).getD 0
          let new_size := get_pdf_size_mb fs2 output_path
          ({ s with
              pdfs := s.pdfs.set pdf_idx
                ⟨output_path, pdf_info.filename, new_pages, new_size, pdf_info.order⟩,
              state := .has_pdfs }, fs2)

/-- The session invariant of §3: a merged session holds exactly one record. -/
def SessionInv (s : UserSession) : Prop :=
  s.is_merged = true → s.pdfs.length = 1

end PdfBot

namespace PdfBot

/-! Concrete objects used by the closed theorems and witnesses below. -/

/-- An empty scratch directory. -/
def emptyFS : FS := fun _ => none

/-- A 3-page upload record. -/
def pdfA : PDFInfo := ⟨"pdf_1_0_1.pdf", "a.pdf", 3, 1, 0⟩

/-- A 2-page upload record. -/
def pdfB : PDFInfo := ⟨"pdf_1_1_2.pdf", "b.pdf", 2, 1, 1⟩

/-- A scratch directory holding the two uploads' files. -/
def fsAB : FS := fun q =>
  if q = "pdf_1_0_1.pdf" then some ⟨3, 1, true⟩
  else if q = "pdf_1_1_2.pdf" then some ⟨2, 1, true⟩
  else none

/-- A session holding one PDF, in `has_pdfs`. -/
def sessA : UserSession := ⟨1, [pdfA], .has_pdfs, ⟨none, none⟩, false, false, false⟩

/-- A batch session holding two PDFs, in `has_pdfs`. -/
def sessAB : UserSession := ⟨1, [pdfA, pdfB], .has_pdfs, ⟨none, none⟩, false, true, false⟩

/-- A session awaiting a page number, with a recorded page count of 3. -/
def sessWait : UserSession :=
  ⟨1, [pdfA], .waiting_page_number, ⟨some 3, none⟩, false, false, false⟩

end PdfBot

namespace PdfBot

/-! Helper lemmas. -/

theorem insertIdx_perm_cons {α : Type} (x : α) :
    ∀ (n : Nat) (l : List α), n ≤ l.length → List.Perm (l.insertIdx n x) (x :: l)
  | 0, l, _ => by simp [List.insertIdx_zero]
  | n + 1, [], h => by simp at h
  | n + 1, a :: l, h => by
    rw [List.insertIdx_succ_cons]
    exact ((insertIdx_perm_cons x n l (by simpa using h)).cons a).trans
      (List.Perm.swap x a l)

theorem get_cons_eraseIdx_perm {α : Type} :
    ∀ (l : List α) (i : Nat) (h : i < l.length),
      List.Perm (l.get ⟨i, h⟩ :: l.eraseIdx i) l
  | _ :: _, 0, _ => by simp
  | a :: l, i + 1, h => by
    have ih := get_cons_eraseIdx_perm l i (by simpa using h)
    simpa using (List.Perm.swap a (l.get ⟨i, by simpa using h⟩) (l.eraseIdx i)).trans
      (ih.cons a)

theorem move_pdf_pdfs_perm (s : UserSession) (f t : Nat) :
    List.Perm ((s.move_pdf f t).1.pdfs) s.pdfs := by
  unfold UserSession.move_pdf
  split
  · rename_i h
    dsimp only
    refine (insertIdx_perm_cons _ t _ ?_).trans (get_cons_eraseIdx_perm s.pdfs f h.1)
    rw [List.length_eraseIdx]
    split <;> omega
  · exact List.Perm.refl _

theorem move_pdf_fields (s : UserSession) (f t : Nat) :
    (s.move_pdf f t).1.state = s.state ∧ (s.move_pdf f t).1.is_merged = s.is_merged := by
  unfold UserSession.move_pdf
  split <;> simp

theorem foldl_remove_none (paths : List String) (g : FS) (p : String)
    (h : p ∈ paths ∨ g p = none) :
    (paths.foldl (fun f q => FS.remove f q) g) p = none := by
  induction paths generalizing g with
  | nil =>
    rcases h with h | h
    · cases h
    · exact h
  | cons q qs ih =>
    rw [List.foldl_cons]
    rcases h with h | h
    · rcases List.mem_cons.mp h with rfl | h2
      · refine ih _ (Or.inr ?_)
        unfold FS.remove
        simp
      · exact ih _ (Or.inl h2)
    · refine ih _ (Or.inr ?_)
      unfold FS.remove
      split
      · rfl
      · exact h

theorem foldl_remove_frame (paths : List String) (g : FS) (p : String)
    (h : p ∉ paths) :
    (paths.foldl (fun f q => FS.remove f q) g) p = g p := by
  induction paths generalizing g with
  | nil => rfl
  | cons q qs ih =>
    have hpq : p ≠ q := fun e => h (e ▸ List.mem_cons_self q qs)
    rw [List.foldl_cons, ih _ (fun hm => h (List.mem_cons_of_mem q hm))]
    unfold FS.remove
    rw [if_neg hpq]

end PdfBot

namespace PdfBot

/-- C7: for every input triple `(pdf_count, is_merged, batch_mode)`,
`create_main_menu` returns exactly the action set of the spec's §4.2
decision table evaluated in the table's row order, always contains the
"cancel" action, and — both being pure functions of the triple — the same
inputs always produce the same action set. -/
theorem create_main_menu_matches_spec_table :
    ∀ (pdf_count : Nat) (is_merged batch_mode : Bool),
      create_main_menu pdf_count is_merged batch_mode =
        build_menu_spec pdf_count is_merged batch_mode ∧
      "cancel" ∈ create_main_menu pdf_count is_merged batch_mode := by
  intro c m b
  constructor
  · unfold create_main_menu build_menu_spec
    split_ifs <;> first | rfl | omega
  · unfold create_main_menu
    split_ifs <;> simp

/-- C1: the spec says the "remove-pages" action records the target record's
page count in the session's scratch data and moves the session to
`waiting_page_number`.  The code's `handle_callback` has no branch matching
the `remove_page` callback tag (which `create_main_menu` emits and
`handle_text` expects), so the event falls through every `elif` and leaves
the session — its state and its scratch data — and the file system
completely unchanged: the recorded page count stays `none` and the state
stays `has_pdfs` instead of becoming `waiting_page_number`. -/
theorem remove_page_callback_unhandled :
    handle_callback true true 0 sessA emptyFS "remove_page" = (sessA, emptyFS) ∧
    (handle_callback true true 0 sessA emptyFS "remove_page").1.state = .has_pdfs ∧
    (handle_callback true true 0 sessA emptyFS "remove_page").1.temp_data.page_count = none :=
  ⟨rfl, rfl, rfl⟩

/-- C2 counterexample: a fresh session that has received exactly one valid
PDF already has `batch_mode = true`, refuting "the batch flag is false after
the user has sent exactly one file in the current round". -/
theorem batch_mode_true_after_first_file :
    ((handle_document true ⟨3, 1, true⟩
        ⟨1, [], .waiting_pdf, ⟨none, none⟩, false, false, false⟩ emptyFS
        ⟨"application/pdf", 1000, some "a.pdf", 1⟩).1.pdfs.length = 1) ∧
    (handle_document true ⟨3, 1, true⟩
        ⟨1, [], .waiting_pdf, ⟨none, none⟩, false, false, false⟩ emptyFS
        ⟨"application/pdf", 1000, some "a.pdf", 1⟩).1.batch_mode = true :=
  ⟨rfl, rfl⟩

/-- C2 amended: `handle_document` sets the batch flag unconditionally on the
FIRST file of a round (before even downloading it): after any document event
that passes the state/MIME/size guards, `batch_mode` is `true` — already
when exactly one file has been sent, not only upon a second file. -/
theorem batch_mode_set_on_first_file (downloadOk : Bool) (content : File)
    (s : UserSession) (fs : FS) (d : DocMsg)
    (hstate : s.state ∈ ([.waiting_pdf, .idle, .has_pdfs] : List SState))
    (hmime : d.mime_type = "application/pdf")
    (hsize : d.file_size ≤ MAX_FILE_SIZE) :
    (handle_document downloadOk content s fs d).1.batch_mode = true := by
  unfold handle_document
  rw [if_neg (fun hc => hc hstate), if_neg (by simp [hmime]), if_neg (by omega)]
  have hb : (if !s.batch_mode then { s with batch_mode := true } else s).batch_mode = true := by
    cases h : s.batch_mode <;> simp [h]
  dsimp only
  split
  · exact hb
  · split
    · exact hb
    · dsimp only [UserSession.add_pdf]
      exact hb

/-- Closed instance of the amended C2 theorem, at a concrete first upload. -/
theorem batch_mode_set_on_first_file_witness :
    (handle_document true ⟨3, 1, true⟩
        ⟨2, [], .idle, ⟨none, none⟩, false, false, false⟩ emptyFS
        ⟨"application/pdf", 5, some "b.pdf", 9⟩).1.batch_mode = true :=
  batch_mode_set_on_first_file true ⟨3, 1, true⟩
    ⟨2, [], .idle, ⟨none, none⟩, false, false, false⟩ emptyFS
    ⟨"application/pdf", 5, some "b.pdf", 9⟩ (by decide) rfl (by decide)

/-- C5: a "merge-all" attempt that does not succeed leaves the session and
the scratch directory unchanged: with fewer than two records the action is
rejected before any mutation, and when the codec merge fails the input
records and their files are left intact (nothing is deleted). -/
theorem merge_failure_leaves_session_unchanged
    (codecOk sendOk : Bool) (outSize : Nat) (s : UserSession) (fs : FS)
    (h : s.pdfs.length < 2 ∨
      merge_pdfs codecOk outSize fs (s.pdfs.map (fun p => p.path))
        (mergedPath s.user_id) = none) :
    handle_callback codecOk sendOk outSize s fs "merge_pdfs" = (s, fs) := by
  show handleAction codecOk sendOk outSize s fs .merge = (s, fs)
  by_cases h2 : s.pdfs.length < 2
  · simp [handleAction, h2]
  · rcases h with h | h
    · exact absurd h h2
    · simp [handleAction, h2, h]

/-- Closed instance of the C5 theorem: merging with a single record is
rejected with no mutation. -/
theorem merge_failure_unchanged_witness :
    handle_callback true true 0 sessA emptyFS "merge_pdfs" = (sessA, emptyFS) :=
  merge_failure_leaves_session_unchanged true true 0 sessA emptyFS
    (Or.inl (by decide))

/-- C6: while the session is in `waiting_page_number`, any text input that is
not a positive integer within `[1, recorded page count]` is rejected with
only a re-prompt: no page-removal file I/O is performed and the session
(state, sequence, scratch data) and the scratch directory are unchanged. -/
theorem invalid_page_number_rejected
    (codecOk : Bool) (outSize : Nat) (s : UserSession) (fs : FS) (text : String)
    (hstate : s.state = .waiting_page_number)
    (hbad : pyToNat text = none ∨
      ∃ n, pyToNat text = some n ∧
        (n < 1 ∨ s.temp_data.page_count.getD 0 < n)) :
    handle_text codecOk outSize s fs text = (s, fs) := by
  unfold handle_text
  rw [if_neg (by simp [hstate])]
  rcases hbad with h | ⟨n, h, hr⟩
  · rw [h]
  · rw [h]
    dsimp only
    rw [if_pos hr]

/-- Closed instance of the C6 theorem: entering "5" with a recorded page
count of 3 changes nothing. -/
theorem invalid_page_number_rejected_witness :
    handle_text true 0 sessWait emptyFS "5" = (sessWait, emptyFS) :=
  invalid_page_number_rejected true 0 sessWait emptyFS "5" rfl
    (Or.inr ⟨5, by decide, Or.inr (by decide)⟩)

end PdfBot

namespace PdfBot

/-! More helper lemmas. -/

theorem clear_inv (s : UserSession) (fs : FS) : SessionInv (s.clear fs).1 := by
  intro h
  simp [UserSession.clear] at h

theorem move_pdf_inv (s : UserSession) (f t : Nat) (hinv : SessionInv s) :
    SessionInv ((s.move_pdf f t).1) := by
  intro h
  rw [(move_pdf_pdfs_perm s f t).length_eq]
  exact hinv ((move_pdf_fields s f t).2 ▸ h)

theorem handleAction_inv (codecOk sendOk : Bool) (outSize : Nat)
    (s : UserSession) (fs : FS) (a : CbAction) (hinv : SessionInv s) :
    SessionInv (handleAction codecOk sendOk outSize s fs a).1 := by
  cases a with
  | add_pdf => exact fun h => hinv h
  | view_order =>
    dsimp only [handleAction]
    split
    · exact hinv
    · exact fun h => hinv h
  | move_up i =>
    cases i with
    | none => exact hinv
    | some idx =>
      dsimp only [handleAction]
      split
      · exact move_pdf_inv s idx (idx - 1) hinv
      · exact hinv
  | move_down i =>
    cases i with
    | none => exact hinv
    | some idx =>
      dsimp only [handleAction]
      split
      · exact move_pdf_inv s idx (idx + 1) hinv
      · exact hinv
  | info i => exact hinv
  | sort_name =>
    intro h
    dsimp only [handleAction] at h ⊢
    rw [List.length_mergeSort]
    exact hinv h
  | sort_pages =>
    intro h
    dsimp only [handleAction] at h ⊢
    rw [List.length_mergeSort]
    exact hinv h
  | done_reorder => exact fun h => hinv h
  | cancel_reorder => exact fun h => hinv h
  | merge =>
    dsimp only [handleAction]
    split
    · exact hinv
    · split
      · exact hinv
      · exact fun _ => rfl
  | finish =>
    dsimp only [handleAction]
    split
    · exact hinv
    · split
      · exact clear_inv s fs
      · exact hinv
  | reset =>
    intro h
    exact absurd (show (s.clear fs).1.is_merged = true from h) (by simp [UserSession.clear])
  | cancel => exact clear_inv s fs
  | other => exact hinv

/-- C4: every operation of the bot — adding a PDF, merging, page removal,
clearing, reordering, and in fact every callback branch — preserves the §3
invariant that a session with the merged flag set holds exactly one record. -/
theorem session_invariant_preserved
    (codecOk sendOk downloadOk : Bool) (outSize : Nat) (content : File)
    (s : UserSession) (fs : FS) (a : CbAction) (act : String) (d : DocMsg)
    (t : String) (p : PDFInfo) (hinv : SessionInv s) :
    SessionInv (handleAction codecOk sendOk outSize s fs a).1 ∧
    SessionInv (handle_callback codecOk sendOk outSize s fs act).1 ∧
    SessionInv (handle_document downloadOk content s fs d).1 ∧
    SessionInv (handle_text codecOk outSize s fs t).1 ∧
    SessionInv (s.add_pdf p) ∧
    SessionInv (s.clear fs).1 := by
  refine ⟨handleAction_inv codecOk sendOk outSize s fs a hinv,
    handleAction_inv codecOk sendOk outSize s fs (parseCallback act) hinv,
    ?_, ?_, ?_, clear_inv s fs⟩
  · have hs1 : ∀ s' : UserSession,
        s' = (if !s.batch_mode then { s with batch_mode := true } else s) →
        SessionInv s' := by
      intro s' hs'
      subst hs'
      split
      · exact fun h => hinv h
      · exact hinv
    unfold handle_document
    split
    · exact hinv
    split
    · exact hinv
    split
    · exact hinv
    dsimp only
    split
    · exact hs1 _ rfl
    split
    · exact hs1 _ rfl
    · intro h
      simp [UserSession.add_pdf] at h
  · unfold handle_text
    split
    · exact hinv
    · split
      · exact hinv
      · dsimp only
        split
        · exact hinv
        · split
          · exact hinv
          · split
            · exact hinv
            · intro h
              rw [List.length_set]
              exact hinv h
  · intro h
    exact absurd h (by simp [UserSession.add_pdf])

/-- Closed instance of the C4 theorem at a concrete batch session. -/
theorem session_invariant_preserved_witness :
    SessionInv (handleAction true true 0 sessAB fsAB .merge).1 ∧
    SessionInv (handle_callback true true 0 sessAB fsAB "merge_pdfs").1 ∧
    SessionInv (handle_document true ⟨3, 1, true⟩ sessAB fsAB
      ⟨"application/pdf", 1000, some "c.pdf", 3⟩).1 ∧
    SessionInv (handle_text true 0 sessAB fsAB "1").1 ∧
    SessionInv (sessAB.add_pdf pdfA) ∧
    SessionInv (sessAB.clear fsAB).1 :=
  session_invariant_preserved true true true 0 ⟨3, 1, true⟩ sessAB fsAB .merge
    "merge_pdfs" ⟨"application/pdf", 1000, some "c.pdf", 3⟩ "1" pdfA
    (fun h => absurd h (by decide))

end PdfBot

namespace PdfBot

/-- C8: the reorder operations — move-up, move-down, sort-by-name and
sort-by-pages — permute the record sequence: the multiset of records is
unchanged (only the order may change) and the file system is untouched; and
moving the first record up (`move_up_0`) or the last record down is an exact
no-op that raises no error. -/
theorem reorder_ops_permute
    (codecOk sendOk : Bool) (outSize : Nat) (s : UserSession) (fs : FS) :
    (∀ i, List.Perm (handleAction codecOk sendOk outSize s fs (.move_up i)).1.pdfs s.pdfs ∧
       (handleAction codecOk sendOk outSize s fs (.move_up i)).2 = fs) ∧
    (∀ i, List.Perm (handleAction codecOk sendOk outSize s fs (.move_down i)).1.pdfs s.pdfs ∧
       (handleAction codecOk sendOk outSize s fs (.move_down i)).2 = fs) ∧
    (List.Perm (handleAction codecOk sendOk outSize s fs .sort_name).1.pdfs s.pdfs ∧
       (handleAction codecOk sendOk outSize s fs .sort_name).2 = fs) ∧
    (List.Perm (handleAction codecOk sendOk outSize s fs .sort_pages).1.pdfs s.pdfs ∧
       (handleAction codecOk sendOk outSize s fs .sort_pages).2 = fs) ∧
    handleAction codecOk sendOk outSize s fs (.move_up (some 0)) = (s, fs) ∧
    handleAction codecOk sendOk outSize s fs
      (.move_down (some (s.pdfs.length - 1))) = (s, fs) := by
  refine ⟨?_, ?_, ⟨List.mergeSort_perm s.pdfs nameLe, rfl⟩,
    ⟨List.mergeSort_perm s.pdfs pagesLe, rfl⟩, by simp [handleAction], ?_⟩
  · intro i
    cases i with
    | none => exact ⟨List.Perm.refl _, rfl⟩
    | some idx =>
      dsimp only [handleAction]
      split
      · exact ⟨move_pdf_pdfs_perm s idx (idx - 1), rfl⟩
      · exact ⟨List.Perm.refl _, rfl⟩
  · intro i
    cases i with
    | none => exact ⟨List.Perm.refl _, rfl⟩
    | some idx =>
      dsimp only [handleAction]
      split
      · exact ⟨move_pdf_pdfs_perm s idx (idx + 1), rfl⟩
      · exact ⟨List.Perm.refl _, rfl⟩
  · dsimp only [handleAction]
    rw [if_neg (lt_irrefl _)]

end PdfBot

namespace PdfBot

theorem nameLe_trans : ∀ a b c : PDFInfo, nameLe a b → nameLe b c → nameLe a c := by
  intro a b c h1 h2
  simp only [nameLe, decide_eq_true_eq] at h1 h2 ⊢
  exact le_trans h1 h2

theorem nameLe_total : ∀ a b : PDFInfo, nameLe a b || nameLe b a := by
  intro a b
  simp only [nameLe]
  rcases le_total a.filename.toLower b.filename.toLower with h | h <;> simp [h]

theorem pagesLe_trans : ∀ a b c : PDFInfo, pagesLe a b → pagesLe b c → pagesLe a c := by
  intro a b c h1 h2
  simp only [pagesLe, decide_eq_true_eq] at h1 h2 ⊢
  omega

theorem pagesLe_total : ∀ a b : PDFInfo, pagesLe a b || pagesLe b a := by
  intro a b
  simp only [pagesLe]
  rcases Nat.le_total a.pages b.pages with h | h <;> simp [h]

/-- Stability of the modelled sort: a stable sort does not change the
relative order of elements sharing a key, i.e. filtering the output by any
single key value yields exactly the input filtered by that key value. -/
theorem filter_mergeSort_key {α : Type} (le : α → α → Bool) (P : α → Bool)
    (trans : ∀ a b c, le a b → le b c → le a c)
    (total : ∀ a b, le a b || le b a)
    (hP : ∀ a b, P a = true → P b = true → le a b = true)
    (l : List α) : (l.mergeSort le).filter P = l.filter P := by
  have hpair : (l.filter P).Pairwise (fun a b => le a b = true) := by
    refine List.pairwise_of_forall_mem_list ?_
    intro x hx y hy
    exact hP x y (List.mem_filter.mp hx).2 (List.mem_filter.mp hy).2
  have hsub : List.Sublist (l.filter P) (l.mergeSort le) :=
    List.sublist_mergeSort trans total hpair (List.filter_sublist l)
  have h2 : List.Sublist (l.filter P) ((l.mergeSort le).filter P) := by
    have h3 := hsub.filter P
    rwa [List.filter_filter, show (fun a => P a && P a) = P from funext fun a => Bool.and_self (P a)] at h3
  have hlen : (l.filter P).length = ((l.mergeSort le).filter P).length :=
    (((List.mergeSort_perm l le).filter P).length_eq).symm
  exact (h2.eq_of_length hlen).symm

/-- C9: `sort_name` orders the records case-insensitively lexicographically
by filename and `sort_pages` orders them ascending by page count; both are
stable on equal keys (the relative order of records with an equal key is
exactly preserved) and idempotent (sorting the already-sorted sequence
returns it unchanged). -/
theorem sorts_ordered_stable_idempotent
    (codecOk sendOk : Bool) (outSize : Nat) (s : UserSession) (fs : FS) :
    ((handleAction codecOk sendOk outSize s fs .sort_name).1.pdfs).Pairwise
        (fun a b => a.filename.toLower ≤ b.filename.toLower) ∧
    ((handleAction codecOk sendOk outSize s fs .sort_pages).1.pdfs).Pairwise
        (fun a b => a.pages ≤ b.pages) ∧
    (handleAction codecOk sendOk outSize
        (handleAction codecOk sendOk outSize s fs .sort_name).1 fs .sort_name).1.pdfs =
      (handleAction codecOk sendOk outSize s fs .sort_name).1.pdfs ∧
    (handleAction codecOk sendOk outSize
        (handleAction codecOk sendOk outSize s fs .sort_pages).1 fs .sort_pages).1.pdfs =
      (handleAction codecOk sendOk outSize s fs .sort_pages).1.pdfs ∧
    (∀ key : String,
      ((handleAction codecOk sendOk outSize s fs .sort_name).1.pdfs).filter
          (fun x => x.filename.toLower == key) =
        s.pdfs.filter (fun x => x.filename.toLower == key)) ∧
    (∀ key : Nat,
      ((handleAction codecOk sendOk outSize s fs .sort_pages).1.pdfs).filter
          (fun x => x.pages == key) =
        s.pdfs.filter (fun x => x.pages == key)) := by
  refine ⟨?_, ?_, ?_, ?_, ?_, ?_⟩
  · dsimp only [handleAction]
    refine (List.sorted_mergeSort nameLe_trans nameLe_total s.pdfs).imp ?_
    intro a b h
    simpa [nameLe] using h
  · dsimp only [handleAction]
    refine (List.sorted_mergeSort pagesLe_trans pagesLe_total s.pdfs).imp ?_
    intro a b h
    simpa [pagesLe] using h
  · dsimp only [handleAction]
    exact List.mergeSort_of_sorted (List.sorted_mergeSort nameLe_trans nameLe_total s.pdfs)
  · dsimp only [handleAction]
    exact List.mergeSort_of_sorted (List.sorted_mergeSort pagesLe_trans pagesLe_total s.pdfs)
  · intro key
    dsimp only [handleAction]
    refine filter_mergeSort_key nameLe _ nameLe_trans nameLe_total ?_ s.pdfs
    intro a b ha hb
    have ha2 : a.filename.toLower = key := by simpa using ha
    have hb2 : b.filename.toLower = key := by simpa using hb
    simp [nameLe, ha2, hb2]
  · intro key
    dsimp only [handleAction]
    refine filter_mergeSort_key pagesLe _ pagesLe_trans pagesLe_total ?_ s.pdfs
    intro a b ha hb
    have ha2 : a.pages = key := by simpa using ha
    have hb2 : b.pages = key := by simpa using hb
    simp [pagesLe, ha2, hb2]

end PdfBot

namespace PdfBot

/-- A scratch directory holding only the first upload's file. -/
def fsA : FS := fun q => if q = "pdf_1_0_1.pdf" then some ⟨3, 1, true⟩ else none

/-- C3: from `has_pdfs` with at least two records, a successful "merge-all"
deletes every input record's file, replaces the sequence with exactly one
merged `PDFInfo` (pointing at the merge output, named `merged_document.pdf`,
holding the sum of the input page counts), sets the merged flag, clears the
batch flag, and leaves the session in state `has_pdfs`. -/
theorem merge_all_success
    (codecOk sendOk : Bool) (outSize : Nat) (s : UserSession) (fs : FS)
    (hstate : s.state = .has_pdfs)
    (hlen : 2 ≤ s.pdfs.length)
    (hcodec : codecOk = true)
    (hvalid : ∀ r ∈ s.pdfs, get_pdf_page_count fs r.path = some r.pages)
    (hout : ∀ r ∈ s.pdfs, r.path ≠ mergedPath s.user_id) :
    (∀ r ∈ s.pdfs,
      (handle_callback codecOk sendOk outSize s fs "merge_pdfs").2 r.path = none) ∧
    (handle_callback codecOk sendOk outSize s fs "merge_pdfs").1.pdfs =
      [⟨mergedPath s.user_id, "merged_document.pdf",
        (s.pdfs.map (fun r => r.pages)).sum, outSize, 0⟩] ∧
    (handle_callback codecOk sendOk outSize s fs "merge_pdfs").1.is_merged = true ∧
    (handle_callback codecOk sendOk outSize s fs "merge_pdfs").1.batch_mode = false ∧
    (handle_callback codecOk sendOk outSize s fs "merge_pdfs").1.state = .has_pdfs := by
  subst hcodec
  have hcond : (true && !(s.pdfs.map (fun p => p.path)).isEmpty
      && (s.pdfs.map (fun p => p.path)).all
        (fun p => (get_pdf_page_count fs p).isSome)) = true := by
    simp only [Bool.true_and, Bool.and_eq_true, Bool.not_eq_true']
    refine ⟨?_, ?_⟩
    · rcases hp : s.pdfs with _ | ⟨r, l⟩
      · rw [hp] at hlen
        exact absurd hlen (by decide)
      · simp
    · rw [List.all_eq_true]
      intro p hp
      obtain ⟨r, hr, rfl⟩ := List.mem_map.mp hp
      rw [hvalid r hr]
      rfl
  have hsum : (s.pdfs.map (fun p => p.path)).map
      (fun p => (get_pdf_page_count fs p).getD 0) = s.pdfs.map (fun r => r.pages) := by
    rw [List.map_map]
    refine List.map_congr_left ?_
    intro r hr
    simp [Function.comp, hvalid r hr]
  have hmerge : merge_pdfs true outSize fs (s.pdfs.map (fun p => p.path))
      (mergedPath s.user_id) =
      some (fs.write (mergedPath s.user_id)
        ⟨(s.pdfs.map (fun r => r.pages)).sum, outSize, true⟩) := by
    unfold merge_pdfs
    rw [if_pos hcond, hsum]
  have houtpaths : mergedPath s.user_id ∉ s.pdfs.map (fun p => p.path) := by
    intro hmem
    obtain ⟨r, hr, he⟩ := List.mem_map.mp hmem
    exact hout r hr he
  have hlook : ((s.pdfs.map (fun p => p.path)).foldl (fun f p => FS.remove f p)
      (fs.write (mergedPath s.user_id)
        ⟨(s.pdfs.map (fun r => r.pages)).sum, outSize, true⟩))
      (mergedPath s.user_id) =
      some ⟨(s.pdfs.map (fun r => r.pages)).sum, outSize, true⟩ := by
    rw [foldl_remove_frame _ _ _ houtpaths]
    unfold FS.write
    simp
  have key : handle_callback true sendOk outSize s fs "merge_pdfs" =
      ({ s with
          pdfs := [⟨mergedPath s.user_id, "merged_document.pdf",
            (s.pdfs.map (fun r => r.pages)).sum, outSize, 0⟩],
          is_merged := true, batch_mode := false },
        (s.pdfs.map (fun p => p.path)).foldl (fun f p => FS.remove f p)
          (fs.write (mergedPath s.user_id)
            ⟨(s.pdfs.map (fun r => r.pages)).sum, outSize, true⟩)) := by
    show handleAction true sendOk outSize s fs .merge = _
    dsimp only [handleAction]
    rw [if_neg (show ¬s.pdfs.length < 2 by omega), hmerge]
    dsimp only
    simp [get_pdf_page_count, get_pdf_size_mb, hlook]
  refine ⟨?_, ?_, ?_, ?_, ?_⟩
  · intro r hr
    rw [key]
    exact foldl_remove_none _ _ _ (Or.inl (List.mem_map_of_mem _ hr))
  · rw [key]
  · rw [key]
  · rw [key]
  · rw [key]
    exact hstate

/-- Closed instance of the C3 theorem: merging the two-record batch session. -/
theorem merge_all_success_witness :
    (∀ r ∈ sessAB.pdfs,
      (handle_callback true true 5 sessAB fsAB "merge_pdfs").2 r.path = none) ∧
    (handle_callback true true 5 sessAB fsAB "merge_pdfs").1.pdfs =
      [⟨mergedPath sessAB.user_id, "merged_document.pdf",
        (sessAB.pdfs.map (fun r => r.pages)).sum, 5, 0⟩] ∧
    (handle_callback true true 5 sessAB fsAB "merge_pdfs").1.is_merged = true ∧
    (handle_callback true true 5 sessAB fsAB "merge_pdfs").1.batch_mode = false ∧
    (handle_callback true true 5 sessAB fsAB "merge_pdfs").1.state = .has_pdfs :=
  merge_all_success true true 5 sessAB fsAB rfl (by decide) rfl (by decide) (by decide)

end PdfBot

namespace PdfBot

/-- C10: a successful page removal replaces only the last record of the
sequence: the new record sits at the same index, keeps the old record's
filename and order index and points at the removal output (one page
fewer); every other record and its position are unchanged, the old input
file is deleted, and no other path in the scratch directory is touched. -/
theorem page_removal_replaces_last_only
    (codecOk : Bool) (outSize : Nat) (s : UserSession) (fs : FS)
    (text : String) (n : Nat) (lastRec : PDFInfo) (pc0 : Nat)
    (hstate : s.state = .waiting_page_number)
    (htext : pyToNat text = some n)
    (hlo : 1 ≤ n)
    (hhi : n ≤ s.temp_data.page_count.getD 0)
    (hlast : s.pdfs.get? (s.pdfs.length - 1) = some lastRec)
    (hcodec : codecOk = true)
    (hfile : get_pdf_page_count fs lastRec.path = some pc0)
    (hn : n ≤ pc0)
    (hne : modifiedPath s.user_id (s.pdfs.length - 1) ≠ lastRec.path) :
    (handle_text codecOk outSize s fs text).1.pdfs =
      s.pdfs.set (s.pdfs.length - 1)
        ⟨modifiedPath s.user_id (s.pdfs.length - 1), lastRec.filename,
         pc0 - 1, outSize, lastRec.order⟩ ∧
    (∀ i, i ≠ s.pdfs.length - 1 →
      (handle_text codecOk outSize s fs text).1.pdfs.get? i = s.pdfs.get? i) ∧
    (handle_text codecOk outSize s fs text).1.state = .has_pdfs ∧
    (handle_text codecOk outSize s fs text).2 lastRec.path = none ∧
    (handle_text codecOk outSize s fs text).2
        (modifiedPath s.user_id (s.pdfs.length - 1)) =
      some ⟨pc0 - 1, outSize, true⟩ ∧
    (∀ p, p ≠ lastRec.path → p ≠ modifiedPath s.user_id (s.pdfs.length - 1) →
      (handle_text codecOk outSize s fs text).2 p = fs p) := by
  subst hcodec
  have hrp : remove_page_from_pdf true outSize fs lastRec.path
      (modifiedPath s.user_id (s.pdfs.length - 1)) n =
      some (fs.write (modifiedPath s.user_id (s.pdfs.length - 1))
        ⟨pc0 - 1, outSize, true⟩) := by
    unfold remove_page_from_pdf
    rw [hfile]
    dsimp only
    rw [if_pos]
    simp [hlo, hn, hne]
  have key : handle_text true outSize s fs text =
      ({ s with
          pdfs := s.pdfs.set (s.pdfs.length - 1)
            ⟨modifiedPath s.user_id (s.pdfs.length - 1), lastRec.filename,
             pc0 - 1, outSize, lastRec.order⟩,
          state := .has_pdfs },
        FS.remove (fs.write (modifiedPath s.user_id (s.pdfs.length - 1))
          ⟨pc0 - 1, outSize, true⟩) lastRec.path) := by
    unfold handle_text
    rw [if_neg (by simp [hstate]), htext]
    dsimp only
    rw [if_neg (by omega), hlast]
    dsimp only
    rw [hrp]
    dsimp only
    have hlook : (FS.remove (fs.write (modifiedPath s.user_id (s.pdfs.length - 1))
        ⟨pc0 - 1, outSize, true⟩) lastRec.path)
        (modifiedPath s.user_id (s.pdfs.length - 1)) =
        some ⟨pc0 - 1, outSize, true⟩ := by
      unfold FS.remove FS.write
      rw [if_neg hne]
      simp
    simp [get_pdf_page_count, get_pdf_size_mb, hlook]
  refine ⟨?_, ?_, ?_, ?_, ?_, ?_⟩
  · rw [key]
  · intro i hi
    rw [key]
    dsimp only
    rw [List.get?_eq_getElem?, List.get?_eq_getElem?,
      List.getElem?_set_ne (fun e => hi e.symm)]
  · rw [key]
  · rw [key]
    unfold FS.remove
    simp
  · rw [key]
    unfold FS.remove FS.write
    simp [hne]
  · intro p h1 h2
    rw [key]
    unfold FS.remove FS.write
    simp [h1, h2]

/-- Closed instance of the C10 theorem: removing page 2 from the single
3-page record. -/
theorem page_removal_replaces_last_only_witness :
    (handle_text true 2 sessWait fsA "2").1.pdfs =
      sessWait.pdfs.set (sessWait.pdfs.length - 1)
        ⟨modifiedPath sessWait.user_id (sessWait.pdfs.length - 1), pdfA.filename,
         2, 2, pdfA.order⟩ ∧
    (∀ i, i ≠ sessWait.pdfs.length - 1 →
      (handle_text true 2 sessWait fsA "2").1.pdfs.get? i = sessWait.pdfs.get? i) ∧
    (handle_text true 2 sessWait fsA "2").1.state = .has_pdfs ∧
    (handle_text true 2 sessWait fsA "2").2 pdfA.path = none ∧
    (handle_text true 2 sessWait fsA "2").2
        (modifiedPath sessWait.user_id (sessWait.pdfs.length - 1)) =
      some ⟨2, 2, true⟩ ∧
    (∀ p, p ≠ pdfA.path → p ≠ modifiedPath sessWait.user_id (sessWait.pdfs.length - 1) →
      (handle_text true 2 sessWait fsA "2").2 p = fsA p) :=
  page_removal_replaces_last_only true 2 sessWait fsA "2" 2 pdfA 3 rfl (by decide)
    (by decide) (by decide) (by decide) rfl (by decide) (by decide) (by decide)

end PdfBot
